import Mathlib

/-!
Verification of the implicit-surface CSG engine: the `Vec3` vector algebra,
the polymorphic implicit-surface tree with hard and smooth boolean operations
(`include/ImplicitSurfaces.h`), the GLSL helper SDF/boolean functions and the
`rayMarch` sphere-tracing loop (`shaders/fragment.frag` and the shader
snippets), and the renderer's ray-marching parameter setter
(`src/Renderer.cpp`).  All machine doubles/floats are modelled as real
numbers; the control flow is translated branch by branch.
-/

namespace CSG

noncomputable section

/-- 3D vector class (`Vec3` in `ImplicitSurfaces.h`), components `x, y, z`. -/
structure Vec3 where
  x : ℝ
  y : ℝ
  z : ℝ

/-- `Vec3::length`: `sqrt(x*x + y*y + z*z)`. -/
def Vec3.length (v : Vec3) : ℝ :=
  Real.sqrt (v.x * v.x + v.y * v.y + v.z * v.z)

/-- `Vec3::normalize`: if the length is zero, return the vector unchanged,
otherwise divide each component by the length. -/
def Vec3.normalize (v : Vec3) : Vec3 :=
  if v.length = 0 then v else ⟨v.x / v.length, v.y / v.length, v.z / v.length⟩

/-- `Vec3::operator+`. -/
instance : Add Vec3 :=
  ⟨fun a b => ⟨a.x + b.x, a.y + b.y, a.z + b.z⟩⟩

/-- `Vec3::operator-`. -/
instance : Sub Vec3 :=
  ⟨fun a b => ⟨a.x - b.x, a.y - b.y, a.z - b.z⟩⟩

/-- `Vec3::operator*` (scalar multiplication on the right, as in the source). -/
def Vec3.smul (v : Vec3) (scalar : ℝ) : Vec3 :=
  ⟨v.x * scalar, v.y * scalar, v.z * scalar⟩

/-- `Vec3::dot`. -/
def Vec3.dot (a b : Vec3) : ℝ :=
  a.x * b.x + a.y * b.y + a.z * b.z

/-- The default-constructed vector `Vec3()` = `(0,0,0)`. -/
def Vec3.zero : Vec3 := ⟨0, 0, 0⟩

theorem Vec3.add_def (a b : Vec3) :
    a + b = ⟨a.x + b.x, a.y + b.y, a.z + b.z⟩ := rfl

theorem Vec3.sub_def (a b : Vec3) :
    a - b = ⟨a.x - b.x, a.y - b.y, a.z - b.z⟩ := rfl

/-- Body of `SmoothUnionOp::evaluate` after the two child evaluations:
`h = max(k - |leftVal - rightVal|, 0) / k; min(leftVal, rightVal) - h*h*h*k*(1/6)`. -/
def smoothUnionBlend (leftVal rightVal k : ℝ) : ℝ :=
  let h := max (k - |leftVal - rightVal|) 0 / k
  min leftVal rightVal - h * h * h * k * (1 / 6)

/-- Body of `SmoothIntersectionOp::evaluate` after the two child evaluations. -/
def smoothIntersectionBlend (leftVal rightVal k : ℝ) : ℝ :=
  let h := max (k - |leftVal - rightVal|) 0 / k
  max leftVal rightVal + h * h * h * k * (1 / 6)

/-- Body of `SmoothDifferenceOp::evaluate` after the two child evaluations:
the right value is negated first (`rightVal = -right->evaluate(point)`). -/
def smoothDifferenceBlend (leftVal rightValRaw k : ℝ) : ℝ :=
  let rightVal := -rightValRaw
  let h := max (k - |leftVal - rightVal|) 0 / k
  max leftVal rightVal + h * h * h * k * (1 / 6)

/-- The implicit-surface tree: primitive leaves (`Sphere`, `Box`, `Plane`,
`Cylinder`) and the boolean-operation composites (`UnionOp`,
`IntersectionOp`, `DifferenceOp`, `SmoothUnionOp`, `SmoothIntersectionOp`,
`SmoothDifferenceOp`) of `ImplicitSurfaces.h`.  Each constructor stores the
corresponding class's constructor arguments unchanged (the C++ constructors
perform no validation); `endPoint` stands for the C++ field `end`. -/
inductive Surface where
  | sphere (center : Vec3) (radius : ℝ)
  | box (center dimensions : Vec3) (smoothing : ℝ)
  | plane (normal : Vec3) (distance : ℝ)
  | cylinder (start endPoint : Vec3) (radius : ℝ)
  | unionOp (left right : Surface)
  | intersectionOp (left right : Surface)
  | differenceOp (left right : Surface)
  | smoothUnionOp (left right : Surface) (k : ℝ)
  | smoothIntersectionOp (left right : Surface) (k : ℝ)
  | smoothDifferenceOp (left right : Surface) (k : ℝ)

/-- The virtual `evaluate(point)` of every `ImplicitSurface` subclass,
translated case by case from `ImplicitSurfaces.h`.  (`Plane`'s constructor
normalizes its normal, so the plane case applies `normalize` to the stored
constructor argument.) -/
def Surface.evaluate : Surface → Vec3 → ℝ
  | .sphere center radius, p => (p - center).length - radius
  | .box center dimensions smoothing, p =>
      let d : Vec3 := ⟨|p.x - center.x| - dimensions.x,
                       |p.y - center.y| - dimensions.y,
                       |p.z - center.z| - dimensions.z⟩
      let dMax : Vec3 := ⟨max d.x 0, max d.y 0, max d.z 0⟩
      dMax.length + min (max d.x (max d.y d.z)) 0 - smoothing
  | .plane normal distance, p => normal.normalize.dot p + distance
  | .cylinder start endPoint radius, p =>
      let axis := endPoint - start
      let len := axis.length
      let axisN := axis.normalize
      let relativePos := p - start
      let d := relativePos.dot axisN
      let dClamped := max 0 (min len d)
      let closestPoint := start + axisN.smul dClamped
      (p - closestPoint).length - radius
  | .unionOp left right, p => min (left.evaluate p) (right.evaluate p)
  | .intersectionOp left right, p => max (left.evaluate p) (right.evaluate p)
  | .differenceOp left right, p => max (left.evaluate p) (-(right.evaluate p))
  | .smoothUnionOp left right k, p =>
      smoothUnionBlend (left.evaluate p) (right.evaluate p) k
  | .smoothIntersectionOp left right k, p =>
      smoothIntersectionBlend (left.evaluate p) (right.evaluate p) k
  | .smoothDifferenceOp left right k, p =>
      smoothDifferenceBlend (left.evaluate p) (right.evaluate p) k

/-- The perturbation step `h = 0.0001` of `ImplicitSurface::gradient`. -/
def gradStep : ℝ := 0.0001

/-- The default `ImplicitSurface::gradient`: symmetric central differences of
`evaluate` with step `gradStep` on each axis, passed through `normalize`. -/
def Surface.gradient (s : Surface) (p : Vec3) : Vec3 :=
  let h := gradStep
  let dx := s.evaluate ⟨p.x + h, p.y, p.z⟩ - s.evaluate ⟨p.x - h, p.y, p.z⟩
  let dy := s.evaluate ⟨p.x, p.y + h, p.z⟩ - s.evaluate ⟨p.x, p.y - h, p.z⟩
  let dz := s.evaluate ⟨p.x, p.y, p.z + h⟩ - s.evaluate ⟨p.x, p.y, p.z - h⟩
  (Vec3.mk dx dy dz).normalize

/-- GLSL `clamp(x, lo, hi)`. -/
def clamp (x lo hi : ℝ) : ℝ := min (max x lo) hi

/-- GLSL `mix(a, b, t) = a*(1-t) + b*t`. -/
def mix (a b t : ℝ) : ℝ := a * (1 - t) + b * t

namespace Shader

/-- Shader `unionOp(d1, d2) = min(d1, d2)` (scene shader snippet). -/
def unionOp (d1 d2 : ℝ) : ℝ := min d1 d2

/-- Shader `intersectionOp(d1, d2) = max(d1, d2)`. -/
def intersectionOp (d1 d2 : ℝ) : ℝ := max d1 d2

/-- Shader `differenceOp(d1, d2) = max(d1, -d2)`. -/
def differenceOp (d1 d2 : ℝ) : ℝ := max d1 (-d2)

/-- Shader `smoothUnionOp(d1, d2, k)`: the mix-based smooth union
`h = clamp(0.5 + 0.5*(d2 - d1)/k, 0, 1); mix(d2, d1, h) - k*h*(1-h)`. -/
def smoothUnionOp (d1 d2 k : ℝ) : ℝ :=
  let h := clamp (0.5 + 0.5 * (d2 - d1) / k) 0 1
  mix d2 d1 h - k * h * (1 - h)

/-- Shader `smoothIntersectionOp(d1, d2, k)`. -/
def smoothIntersectionOp (d1 d2 k : ℝ) : ℝ :=
  let h := clamp (0.5 - 0.5 * (d2 - d1) / k) 0 1
  mix d2 d1 h + k * h * (1 - h)

/-- Shader `smoothDifferenceOp(d1, d2, k)`. -/
def smoothDifferenceOp (d1 d2 k : ℝ) : ℝ :=
  let h := clamp (0.5 - 0.5 * (d2 + d1) / k) 0 1
  mix d1 (-d2) h + k * h * (1 - h)

end Shader

/-- Loop of `rayMarch` in `fragment.frag`.  `i` is the loop counter, `depth`
and `steps` the mutable locals; the scene SDF, ray origin/direction and the
uniforms `maxSteps`, `maxDistance`, `epsilon` are parameters.  Each iteration:
`p = ro + depth*rd; dist = sceneSDF(p); if (dist < epsilon) { steps = i;
return depth; } depth += dist; if (depth >= maxDistance) { steps = maxSteps;
return maxDistance; } steps = i;` and after the loop `return maxDistance`
(with `steps` holding its last assigned value). -/
def rayMarchLoop (sdf : Vec3 → ℝ) (ro rd : Vec3) (maxSteps : ℕ)
    (maxDistance epsilon : ℝ) (i : ℕ) (depth : ℝ) (steps : ℕ) : ℝ × ℕ :=
  if h : i < maxSteps then
    let dist := sdf (ro + rd.smul depth)
    if dist < epsilon then (depth, i)
    else
      let depth2 := depth + dist
      if maxDistance ≤ depth2 then (maxDistance, maxSteps)
      else rayMarchLoop sdf ro rd maxSteps maxDistance epsilon (i + 1) depth2 i
  else (maxDistance, steps)
termination_by maxSteps - i
decreasing_by omega

/-- `rayMarch(ro, rd, out steps)` of `fragment.frag`: `depth = 0; steps = 0;`
then the loop, returning the pair (returned distance, final `steps`). -/
def rayMarch (sdf : Vec3 → ℝ) (ro rd : Vec3) (maxSteps : ℕ)
    (maxDistance epsilon : ℝ) : ℝ × ℕ :=
  rayMarchLoop sdf ro rd maxSteps maxDistance epsilon 0 0 0

/-- The sequence of `depth` values the ray-march loop visits when neither
exit has fired: `depth₀ = 0`, `depthₙ₊₁ = depthₙ + sceneSDF(ro + depthₙ*rd)`. -/
def depthSeq (sdf : Vec3 → ℝ) (ro rd : Vec3) : ℕ → ℝ
  | 0 => 0
  | n + 1 => depthSeq sdf ro rd n + sdf (ro + rd.smul (depthSeq sdf ro rd n))

/-- The ray-marching configuration of `ImplicitRenderer` (`maxSteps` is a C++
`int`, hence `ℤ`; the floats are reals). -/
structure RaymarchingParams where
  maxSteps : ℤ
  maxDistance : ℝ
  epsilon : ℝ

/-- `ImplicitRenderer::setRaymarchingParams(steps, distance, eps)`: plain
member assignments, translated from `Renderer.cpp`. -/
def setRaymarchingParams (s : RaymarchingParams) (steps : ℤ)
    (distance eps : ℝ) : RaymarchingParams :=
  { s with maxSteps := steps, maxDistance := distance, epsilon := eps }

end

/-! ## Theorems -/

/-- Claim C1: for every point and every pair of child surfaces, the hard
boolean operations evaluate exactly (no approximation) to `min` for union,
`max` for intersection, and `max(left, -right)` for difference. -/
theorem c1_hard_boolean_ops_exact (left right : Surface) (p : Vec3) :
    (Surface.unionOp left right).evaluate p
        = min (left.evaluate p) (right.evaluate p) ∧
    (Surface.intersectionOp left right).evaluate p
        = max (left.evaluate p) (right.evaluate p) ∧
    (Surface.differenceOp left right).evaluate p
        = max (left.evaluate p) (-(right.evaluate p)) :=
  ⟨rfl, rfl, rfl⟩

/-- Claim C3: the smooth boolean operations evaluate to the cubic-polynomial
blends: with `dL`, `dR` the child values and `h = max(k - |dL - dR|, 0)/k`,
smooth union gives `min(dL,dR) - h³k/6`, smooth intersection gives
`max(dL,dR) + h³k/6`, and smooth difference negates the right child first
(`dR' = -dR`, `h` computed from `|dL - dR'|`) giving `max(dL,dR') + h³k/6`. -/
theorem c3_smooth_boolean_ops_formulas (left right : Surface) (p : Vec3) (k : ℝ) :
    (Surface.smoothUnionOp left right k).evaluate p
        = min (left.evaluate p) (right.evaluate p)
          - (max (k - |left.evaluate p - right.evaluate p|) 0 / k) ^ 3 * k / 6 ∧
    (Surface.smoothIntersectionOp left right k).evaluate p
        = max (left.evaluate p) (right.evaluate p)
          + (max (k - |left.evaluate p - right.evaluate p|) 0 / k) ^ 3 * k / 6 ∧
    (Surface.smoothDifferenceOp left right k).evaluate p
        = max (left.evaluate p) (-(right.evaluate p))
          + (max (k - |left.evaluate p - (-(right.evaluate p))|) 0 / k) ^ 3 * k / 6 := by
  refine ⟨?_, ?_, ?_⟩ <;>
    simp only [Surface.evaluate, smoothUnionBlend, smoothIntersectionBlend,
      smoothDifferenceBlend] <;> ring

/-- Claim C7: `rayMarch` with `maxSteps = 0` returns the miss outcome
`(maxDistance, steps = 0)` while `depth` is still `0`; the result is the same
for every scene SDF, so the scene function is never consulted. -/
theorem c7_rayMarch_zero_steps_misses (sdf : Vec3 → ℝ) (ro rd : Vec3)
    (maxDistance epsilon : ℝ) :
    rayMarch sdf ro rd 0 maxDistance epsilon = (maxDistance, 0) := by
  rw [rayMarch, rayMarchLoop]
  simp

/-- Claim C8: `Vec3::normalize` returns a zero-length vector unchanged (the
guard branch performs no division), and divides every non-zero-length vector
componentwise by its length. -/
theorem c8_normalize_zero_guard (v : Vec3) :
    (v.length = 0 → v.normalize = v) ∧
    (v.length ≠ 0 →
      v.normalize = ⟨v.x / v.length, v.y / v.length, v.z / v.length⟩) := by
  constructor <;> intro h <;> simp [Vec3.normalize, h]

/-- Witness for C8 at concrete inputs: the zero vector has length zero and is
returned unchanged. -/
theorem c8_normalize_zero_guard_witness :
    Vec3.length ⟨0, 0, 0⟩ = 0 ∧ Vec3.normalize ⟨0, 0, 0⟩ = (⟨0, 0, 0⟩ : Vec3) := by
  have hlen : Vec3.length ⟨0, 0, 0⟩ = 0 := by
    simp [Vec3.length]
  exact ⟨hlen, (c8_normalize_zero_guard ⟨0, 0, 0⟩).1 hlen⟩

/-- Claim C9: `Cylinder::evaluate` on a degenerate cylinder whose start and
end coincide is defined: the zero axis goes through the guarded `normalize`,
the projection parameter clamps to `0`, the closest point is the start point,
and the result is `|p - start| - radius` (a sphere fallback). -/
theorem c9_degenerate_cylinder_sphere_fallback (start : Vec3) (radius : ℝ)
    (p : Vec3) :
    (Surface.cylinder start start radius).evaluate p
      = (p - start).length - radius := by
  simp [Surface.evaluate, Vec3.sub_def, Vec3.add_def, Vec3.normalize,
    Vec3.length, Vec3.dot, Vec3.smul]

/-- Claim C4: the mix-based smooth union in the shader text and the
cubic-polynomial smooth union of the object model disagree as functions:
at `d1 = d2 = 0`, `k = 1` the shader gives `-1/4` while the object model
gives `-1/6`. -/
theorem c4_shader_model_smooth_union_differ :
    ∃ d1 d2 k : ℝ, 0 < k ∧
      Shader.smoothUnionOp d1 d2 k ≠ smoothUnionBlend d1 d2 k := by
  refine ⟨0, 0, 1, one_pos, ?_⟩
  norm_num [Shader.smoothUnionOp, smoothUnionBlend, clamp, mix]

/-- Amended C6: neither `setRaymarchingParams` nor the smooth-operation
constructors validate anything; arbitrary values (including `maxSteps ≤ 0`,
`epsilon ≤ 0`, `k ≤ 0`) are stored as given and the smooth operations
evaluate with whatever `k` was stored. -/
theorem c6_configuration_never_rejected (s : RaymarchingParams) (steps : ℤ)
    (distance eps : ℝ) (left right : Surface) (k : ℝ) (p : Vec3) :
    setRaymarchingParams s steps distance eps
        = ⟨steps, distance, eps⟩ ∧
    (Surface.smoothUnionOp left right k).evaluate p
        = smoothUnionBlend (left.evaluate p) (right.evaluate p) k ∧
    (Surface.smoothIntersectionOp left right k).evaluate p
        = smoothIntersectionBlend (left.evaluate p) (right.evaluate p) k ∧
    (Surface.smoothDifferenceOp left right k).evaluate p
        = smoothDifferenceBlend (left.evaluate p) (right.evaluate p) k :=
  ⟨rfl, rfl, rfl, rfl⟩

/-- Counterexample to C6 as stated: `setRaymarchingParams` silently accepts
`maxSteps = 0` and `epsilon = 0` (it just stores them), and a smooth union
constructed with `k = -1` silently evaluates to an ordinary real number
(here `0`) instead of failing. -/
theorem c6_counterexample_silent_acceptance :
    setRaymarchingParams ⟨100, 100, 1 / 1000⟩ 0 100 0
        = (⟨0, 100, 0⟩ : RaymarchingParams) ∧
    (Surface.smoothUnionOp (Surface.sphere Vec3.zero 0)
        (Surface.sphere Vec3.zero 0) (-1)).evaluate Vec3.zero = 0 := by
  constructor
  · rfl
  · norm_num [Surface.evaluate, smoothUnionBlend, Vec3.length, Vec3.sub_def,
      Vec3.zero]

/-- The blend weight `h = max(k - |a - b|, 0)/k` is nonnegative when `k > 0`. -/
theorem blend_weight_nonneg (a b k : ℝ) (hk : 0 < k) :
    0 ≤ max (k - |a - b|) 0 / k :=
  div_nonneg (le_max_right _ 0) hk.le

/-- The blend weight `h = max(k - |a - b|, 0)/k` is at most `1` when `k > 0`. -/
theorem blend_weight_le_one (a b k : ℝ) (hk : 0 < k) :
    max (k - |a - b|) 0 / k ≤ 1 := by
  rw [div_le_one hk]
  exact max_le (by linarith [abs_nonneg (a - b)]) hk.le

/-- The cubic correction term `h·h·h·k·(1/6)` of the smooth blends is
bounded in absolute value by `k/6` whenever `0 ≤ h ≤ 1` and `k > 0`. -/
theorem cubic_correction_abs_le (h k : ℝ) (h0 : 0 ≤ h) (h1 : h ≤ 1)
    (hk : 0 < k) : |h * h * h * k * (1 / 6)| ≤ k / 6 := by
  rw [abs_of_nonneg (by positivity)]
  have h2 : h * h ≤ 1 := by nlinarith
  have h3 : h * h * h ≤ 1 := by nlinarith
  nlinarith

/-- Claim C5: each smooth boolean operation differs from its hard counterpart
by exactly the cubic correction term, whose absolute value is at most `k/6`;
hence the smooth variants converge to the hard ones as `k → 0⁺`. -/
theorem c5_smooth_converges_to_hard (left right : Surface) (p : Vec3)
    (k : ℝ) (hk : 0 < k) :
    |(Surface.smoothUnionOp left right k).evaluate p
        - (Surface.unionOp left right).evaluate p| ≤ k / 6 ∧
    |(Surface.smoothIntersectionOp left right k).evaluate p
        - (Surface.intersectionOp left right).evaluate p| ≤ k / 6 ∧
    |(Surface.smoothDifferenceOp left right k).evaluate p
        - (Surface.differenceOp left right).evaluate p| ≤ k / 6 := by
  set a := left.evaluate p with ha
  set b := right.evaluate p with hb
  refine ⟨?_, ?_, ?_⟩
  · simp only [Surface.evaluate, smoothUnionBlend, ← ha, ← hb]
    rw [show min a b - max (k - |a - b|) 0 / k * (max (k - |a - b|) 0 / k)
          * (max (k - |a - b|) 0 / k) * k * (1 / 6) - min a b
        = -(max (k - |a - b|) 0 / k * (max (k - |a - b|) 0 / k)
          * (max (k - |a - b|) 0 / k) * k * (1 / 6)) from by ring, abs_neg]
    exact cubic_correction_abs_le _ k (blend_weight_nonneg a b k hk)
      (blend_weight_le_one a b k hk) hk
  · simp only [Surface.evaluate, smoothIntersectionBlend, ← ha, ← hb]
    rw [show max a b + max (k - |a - b|) 0 / k * (max (k - |a - b|) 0 / k)
          * (max (k - |a - b|) 0 / k) * k * (1 / 6) - max a b
        = max (k - |a - b|) 0 / k * (max (k - |a - b|) 0 / k)
          * (max (k - |a - b|) 0 / k) * k * (1 / 6) from by ring]
    exact cubic_correction_abs_le _ k (blend_weight_nonneg a b k hk)
      (blend_weight_le_one a b k hk) hk
  · simp only [Surface.evaluate, smoothDifferenceBlend, ← ha, ← hb]
    rw [show max a (-b) + max (k - |a - -b|) 0 / k * (max (k - |a - -b|) 0 / k)
          * (max (k - |a - -b|) 0 / k) * k * (1 / 6) - max a (-b)
        = max (k - |a - -b|) 0 / k * (max (k - |a - -b|) 0 / k)
          * (max (k - |a - -b|) 0 / k) * k * (1 / 6) from by ring]
    exact cubic_correction_abs_le _ k (blend_weight_nonneg a (-b) k hk)
      (blend_weight_le_one a (-b) k hk) hk

/-- Witness for C5 at concrete inputs: two spheres at the origin, `k = 1`. -/
theorem c5_smooth_converges_to_hard_witness :
    0 < (1 : ℝ) ∧
    |(Surface.smoothUnionOp (Surface.sphere Vec3.zero 1)
          (Surface.sphere Vec3.zero 2) 1).evaluate Vec3.zero
        - (Surface.unionOp (Surface.sphere Vec3.zero 1)
          (Surface.sphere Vec3.zero 2)).evaluate Vec3.zero| ≤ 1 / 6 :=
  ⟨one_pos, (c5_smooth_converges_to_hard (Surface.sphere Vec3.zero 1)
    (Surface.sphere Vec3.zero 2) Vec3.zero 1 one_pos).1⟩

/-- Over the reals, a vector of length zero is the zero vector. -/
theorem Vec3.length_eq_zero_iff (v : Vec3) :
    v.length = 0 ↔ v = ⟨0, 0, 0⟩ := by
  constructor
  · intro h
    have h0 : (0 : ℝ) ≤ v.x * v.x + v.y * v.y + v.z * v.z := by
      nlinarith [mul_self_nonneg v.x, mul_self_nonneg v.y, mul_self_nonneg v.z]
    have hs : v.x * v.x + v.y * v.y + v.z * v.z = 0 := by
      have := (Real.sqrt_eq_zero h0).mp h
      exact this
    have hx : v.x = 0 := by
      have hxx : v.x * v.x ≤ 0 := by nlinarith [mul_self_nonneg v.y, mul_self_nonneg v.z]
      exact mul_self_eq_zero.mp (le_antisymm hxx (mul_self_nonneg v.x))
    have hy : v.y = 0 := by
      have hyy : v.y * v.y ≤ 0 := by nlinarith [mul_self_nonneg v.x, mul_self_nonneg v.z]
      exact mul_self_eq_zero.mp (le_antisymm hyy (mul_self_nonneg v.y))
    have hz : v.z = 0 := by
      have hzz : v.z * v.z ≤ 0 := by nlinarith [mul_self_nonneg v.x, mul_self_nonneg v.y]
      exact mul_self_eq_zero.mp (le_antisymm hzz (mul_self_nonneg v.z))
    cases v
    simp only [Vec3.mk.injEq]
    exact ⟨hx, hy, hz⟩
  · rintro rfl
    simp [Vec3.length]

/-- Normalizing a vector of nonzero length yields a unit vector. -/
theorem Vec3.length_normalize_of_ne_zero (v : Vec3) (h : v.length ≠ 0) :
    v.normalize.length = 1 := by
  have h0 : (0 : ℝ) ≤ v.x * v.x + v.y * v.y + v.z * v.z := by
    nlinarith [mul_self_nonneg v.x, mul_self_nonneg v.y, mul_self_nonneg v.z]
  have hs : v.x * v.x + v.y * v.y + v.z * v.z ≠ 0 := by
    intro hz
    apply h
    show Real.sqrt (v.x * v.x + v.y * v.y + v.z * v.z) = 0
    rw [hz, Real.sqrt_zero]
  have hmul : v.length * v.length = v.x * v.x + v.y * v.y + v.z * v.z :=
    Real.mul_self_sqrt h0
  rw [Vec3.normalize, if_neg h]
  show Real.sqrt (v.x / v.length * (v.x / v.length) + v.y / v.length * (v.y / v.length)
    + v.z / v.length * (v.z / v.length)) = 1
  have hdiv : v.x / v.length * (v.x / v.length) + v.y / v.length * (v.y / v.length)
      + v.z / v.length * (v.z / v.length)
      = (v.x * v.x + v.y * v.y + v.z * v.z) / (v.length * v.length) := by ring
  rw [hdiv, hmul, div_self hs, Real.sqrt_one]

/-- Claim C10: the default `gradient` always returns either a unit vector or
the exact zero vector, and whenever all three central differences of
`evaluate` at step `h = 0.0001` vanish, it returns `(0,0,0)` because the
difference vector goes through the zero-guarded `normalize`. -/
theorem c10_gradient_unit_or_zero (s : Surface) (p : Vec3) :
    ((s.gradient p).length = 1 ∨ s.gradient p = ⟨0, 0, 0⟩) ∧
    (s.evaluate ⟨p.x + gradStep, p.y, p.z⟩ = s.evaluate ⟨p.x - gradStep, p.y, p.z⟩ →
      s.evaluate ⟨p.x, p.y + gradStep, p.z⟩ = s.evaluate ⟨p.x, p.y - gradStep, p.z⟩ →
      s.evaluate ⟨p.x, p.y, p.z + gradStep⟩ = s.evaluate ⟨p.x, p.y, p.z - gradStep⟩ →
      s.gradient p = ⟨0, 0, 0⟩) := by
  constructor
  · have key : ∀ w : Vec3, w.normalize.length = 1 ∨ w.normalize = ⟨0, 0, 0⟩ := by
      intro w
      by_cases hl : w.length = 0
      · right
        rw [Vec3.normalize, if_pos hl]
        exact (Vec3.length_eq_zero_iff w).mp hl
      · left
        exact Vec3.length_normalize_of_ne_zero w hl
    exact key _
  · intro h1 h2 h3
    show (Vec3.mk (s.evaluate ⟨p.x + gradStep, p.y, p.z⟩ - s.evaluate ⟨p.x - gradStep, p.y, p.z⟩)
      (s.evaluate ⟨p.x, p.y + gradStep, p.z⟩ - s.evaluate ⟨p.x, p.y - gradStep, p.z⟩)
      (s.evaluate ⟨p.x, p.y, p.z + gradStep⟩ - s.evaluate ⟨p.x, p.y, p.z - gradStep⟩)).normalize
        = ⟨0, 0, 0⟩
    rw [h1, h2, h3, sub_self]
    simp [Vec3.normalize, Vec3.length]

/-- Witness for C10 at a concrete input: at the center of a unit sphere all
three central differences vanish and the gradient is the zero vector. -/
theorem c10_gradient_unit_or_zero_witness :
    (Surface.sphere Vec3.zero 1).evaluate ⟨Vec3.zero.x + gradStep, Vec3.zero.y, Vec3.zero.z⟩
        = (Surface.sphere Vec3.zero 1).evaluate ⟨Vec3.zero.x - gradStep, Vec3.zero.y, Vec3.zero.z⟩ ∧
    (Surface.sphere Vec3.zero 1).gradient Vec3.zero = ⟨0, 0, 0⟩ := by
  have hx : (Surface.sphere Vec3.zero 1).evaluate ⟨Vec3.zero.x + gradStep, Vec3.zero.y, Vec3.zero.z⟩
      = (Surface.sphere Vec3.zero 1).evaluate ⟨Vec3.zero.x - gradStep, Vec3.zero.y, Vec3.zero.z⟩ := by
    norm_num [Surface.evaluate, Vec3.length, Vec3.sub_def, Vec3.zero, gradStep]
  have hy : (Surface.sphere Vec3.zero 1).evaluate ⟨Vec3.zero.x, Vec3.zero.y + gradStep, Vec3.zero.z⟩
      = (Surface.sphere Vec3.zero 1).evaluate ⟨Vec3.zero.x, Vec3.zero.y - gradStep, Vec3.zero.z⟩ := by
    norm_num [Surface.evaluate, Vec3.length, Vec3.sub_def, Vec3.zero, gradStep]
  have hz : (Surface.sphere Vec3.zero 1).evaluate ⟨Vec3.zero.x, Vec3.zero.y, Vec3.zero.z + gradStep⟩
      = (Surface.sphere Vec3.zero 1).evaluate ⟨Vec3.zero.x, Vec3.zero.y, Vec3.zero.z - gradStep⟩ := by
    norm_num [Surface.evaluate, Vec3.length, Vec3.sub_def, Vec3.zero, gradStep]
  exact ⟨hx, (c10_gradient_unit_or_zero (Surface.sphere Vec3.zero 1) Vec3.zero).2 hx hy hz⟩

/-- One-step unfolding of the ray-march loop with the `let` bindings
flattened. -/
theorem rayMarchLoop_eq (sdf : Vec3 → ℝ) (ro rd : Vec3) (maxSteps : ℕ)
    (maxDistance epsilon : ℝ) (i : ℕ) (depth : ℝ) (steps : ℕ) :
    rayMarchLoop sdf ro rd maxSteps maxDistance epsilon i depth steps =
      if i < maxSteps then
        if sdf (ro + rd.smul depth) < epsilon then (depth, i)
        else if maxDistance ≤ depth + sdf (ro + rd.smul depth) then
          (maxDistance, maxSteps)
        else rayMarchLoop sdf ro rd maxSteps maxDistance epsilon (i + 1)
          (depth + sdf (ro + rd.smul depth)) i
      else (maxDistance, steps) := by
  rw [rayMarchLoop]
  by_cases h : i < maxSteps <;> simp [h]

/-- If no iteration up to `maxSteps` hits or exceeds `maxDistance`, the loop
falls through and returns `(maxDistance, maxSteps - 1)`: the last full
iteration stored `steps = maxSteps - 1`. -/
theorem rayMarchLoop_exhausts (sdf : Vec3 → ℝ) (ro rd : Vec3) (maxSteps : ℕ)
    (maxDistance epsilon : ℝ)
    (hno : ∀ i < maxSteps,
      ¬ sdf (ro + rd.smul (depthSeq sdf ro rd i)) < epsilon ∧
        depthSeq sdf ro rd (i + 1) < maxDistance) :
    ∀ n i steps, maxSteps - i = n → i < maxSteps →
      rayMarchLoop sdf ro rd maxSteps maxDistance epsilon i
        (depthSeq sdf ro rd i) steps = (maxDistance, maxSteps - 1) := by
  intro n
  induction n with
  | zero =>
    intro i steps hn hi
    omega
  | succ n ih =>
    intro i steps hn hi
    obtain ⟨hne, hlt⟩ := hno i hi
    have hstep : depthSeq sdf ro rd i + sdf (ro + rd.smul (depthSeq sdf ro rd i))
        = depthSeq sdf ro rd (i + 1) := rfl
    rw [rayMarchLoop_eq, if_pos hi, if_neg hne, hstep,
      if_neg (not_le.mpr hlt)]
    by_cases hi1 : i + 1 < maxSteps
    · exact ih (i + 1) i (by omega) hi1
    · rw [rayMarchLoop_eq, if_neg (by omega)]
      have hieq : i = maxSteps - 1 := by omega
      rw [hieq]

/-- Claim C2: the `rayMarch` loop satisfies, for every iteration index
`i < maxSteps` and current state: a hit (`d < epsilon`) returns
`(depth, steps = i)`; otherwise exceeding the distance budget
(`depth + d ≥ maxDistance`) returns `(maxDistance, steps = maxSteps)`; and if
all `maxSteps ≥ 1` iterations run without either exit, the march returns
`(maxDistance, steps = maxSteps - 1)`. -/
theorem c2_rayMarch_loop_spec (sdf : Vec3 → ℝ) (ro rd : Vec3) (maxSteps : ℕ)
    (maxDistance epsilon : ℝ) :
    (∀ i depth steps, i < maxSteps → sdf (ro + rd.smul depth) < epsilon →
      rayMarchLoop sdf ro rd maxSteps maxDistance epsilon i depth steps
        = (depth, i)) ∧
    (∀ i depth steps, i < maxSteps → ¬ sdf (ro + rd.smul depth) < epsilon →
      maxDistance ≤ depth + sdf (ro + rd.smul depth) →
      rayMarchLoop sdf ro rd maxSteps maxDistance epsilon i depth steps
        = (maxDistance, maxSteps)) ∧
    (1 ≤ maxSteps →
      (∀ i < maxSteps,
        ¬ sdf (ro + rd.smul (depthSeq sdf ro rd i)) < epsilon ∧
          depthSeq sdf ro rd (i + 1) < maxDistance) →
      rayMarch sdf ro rd maxSteps maxDistance epsilon
        = (maxDistance, maxSteps - 1)) := by
  refine ⟨?_, ?_, ?_⟩
  · intro i depth steps hi hhit
    rw [rayMarchLoop_eq, if_pos hi, if_pos hhit]
  · intro i depth steps hi hne hge
    rw [rayMarchLoop_eq, if_pos hi, if_neg hne, if_pos hge]
  · intro h1 hno
    exact rayMarchLoop_exhausts sdf ro rd maxSteps maxDistance epsilon hno
      maxSteps 0 0 (by omega) (by omega)

/-- Witness for C2 at concrete inputs: with the constant SDF `1`, `epsilon =
1/2`, `maxDistance = 10` and `maxSteps = 3`, no iteration hits or exceeds the
budget, and the march returns `(10, steps = 2 = maxSteps - 1)`. -/
theorem c2_rayMarch_loop_spec_witness :
    1 ≤ 3 ∧
    rayMarch (fun _ => (1 : ℝ)) Vec3.zero Vec3.zero 3 10 (1 / 2) = (10, 2) := by
  have hno : ∀ i < 3,
      ¬ (fun _ => (1 : ℝ)) (Vec3.zero + Vec3.zero.smul
          (depthSeq (fun _ => (1 : ℝ)) Vec3.zero Vec3.zero i)) < 1 / 2 ∧
        depthSeq (fun _ => (1 : ℝ)) Vec3.zero Vec3.zero (i + 1) < 10 := by
    intro i hi
    interval_cases i <;> constructor <;> norm_num [depthSeq]
  exact ⟨by norm_num,
    (c2_rayMarch_loop_spec (fun _ => (1 : ℝ)) Vec3.zero Vec3.zero 3 10
      (1 / 2)).2.2 (by norm_num) hno⟩

end CSG
